import Mathlib

/-!
Verification of the mb-pomodoro interval store, timer loop and liveness check.

The definitions below are a shallow embedding of `src/mb_pomodoro/db.py`
(the `Db` class: SQLite-backed interval store) and
`src/mb_pomodoro/timer_worker.py` (the background timer loop and the
`is_alive` process liveness check).

Modelling conventions:
* The SQLite `intervals` table is a list of `IntervalRow` records plus an
  autoincrement counter `nextId`; the append-only `interval_events` table is a
  list of `Event` records (their autoincrement ids are the list positions).
* Each `Db` method translates to a pure function from the store to the store
  plus the method's return value.  A rolled-back transaction (rowcount 0 or a
  raised exception before commit) yields the original store.
* SQL `UPDATE ... WHERE id = ? AND status ...` updates every matching row;
  `cursor.rowcount` is the number of matching rows.  The `id` column is a
  primary key, so well-formed stores have pairwise distinct ids.
* Timestamps and durations are unbounded integers (`Int`), as in SQLite.
-/

namespace MbPomodoro

/-- Lifecycle statuses of an interval (`IntervalStatus` in db.py): a closed set. -/
inductive IntervalStatus
  | running
  | paused
  | finished
  | completed
  | abandoned
  | cancelled
  | interrupted
deriving DecidableEq, Repr

/-- Audit-log event types (`EventType` in db.py). -/
inductive EventType
  | started
  | paused
  | resumed
  | finished
  | completed
  | abandoned
  | cancelled
  | interrupted
deriving DecidableEq, Repr

/-- Membership in `ACTIVE_STATUSES` from db.py, which is also the status set of
the partial unique index `idx_one_active` created in `_migrate_v1`. -/
def isActive : IntervalStatus → Bool
  | .running => true
  | .paused => true
  | .interrupted => true
  | .finished => true
  | _ => false

/-- Python `EventType(status)`: the event type whose string value equals the
status's string value; `none` models the `ValueError` raised for `running`,
which has no event counterpart. -/
def statusToEventType : IntervalStatus → Option EventType
  | .running => none
  | .paused => some .paused
  | .finished => some .finished
  | .completed => some .completed
  | .abandoned => some .abandoned
  | .cancelled => some .cancelled
  | .interrupted => some .interrupted

/-- A row of the `intervals` table (schema in `_migrate_v1`; the `IntervalRow`
dataclass projects all of these except `ended_at`). -/
structure IntervalRow where
  id : Nat
  status : IntervalStatus
  duration_sec : Int
  worked_sec : Int
  run_started_at : Option Int
  started_at : Int
  ended_at : Option Int
  heartbeat_at : Option Int
deriving DecidableEq, Repr

/-- Method `effective_worked` of `IntervalRow` in db.py: worked time including
the in-progress running segment, clamped to the target duration. -/
def IntervalRow.effective_worked (r : IntervalRow) (now : Int) : Int :=
  match r.status, r.run_started_at with
  | .running, some t0 => min (r.worked_sec + (now - t0)) r.duration_sec
  | _, _ => r.worked_sec

/-- A row of the append-only `interval_events` table. -/
structure Event where
  interval_id : Nat
  event_type : EventType
  event_at : Int
deriving DecidableEq, Repr

/-- The durable store: the two tables plus the `intervals` autoincrement
counter. -/
structure Store where
  intervals : List IntervalRow
  events : List Event
  nextId : Nat
deriving DecidableEq, Repr

/-- The freshly migrated database: both tables empty, first id will be 1. -/
def emptyStore : Store := ⟨[], [], 1⟩

/-- A SQL `UPDATE intervals SET ... WHERE id = ? AND <status precondition>`:
returns `cursor.rowcount` (number of matching rows) and the updated table. -/
def Store.updateWhere (s : Store) (interval_id : Nat) (pre : IntervalStatus → Bool)
    (f : IntervalRow → IntervalRow) : Nat × Store :=
  ((s.intervals.filter (fun r => r.id == interval_id && pre r.status)).length,
   { s with intervals :=
      s.intervals.map (fun r => if r.id == interval_id && pre r.status then f r else r) })

/-- WHERE clause `status = 'running'`. -/
def preRunning : IntervalStatus → Bool := (· == .running)

/-- WHERE clause `status = 'finished'`. -/
def preFinished : IntervalStatus → Bool := (· == .finished)

/-- WHERE clause `status IN ('paused', 'interrupted')`. -/
def prePausedOrInterrupted : IntervalStatus → Bool :=
  fun st => st == .paused || st == .interrupted

/-- WHERE clause `status IN ('running', 'paused', 'interrupted')`. -/
def preActive3 : IntervalStatus → Bool :=
  fun st => st == .running || st == .paused || st == .interrupted

theorem preRunning_iff (st : IntervalStatus) : preRunning st = true ↔ st = .running := by
  simp [preRunning]

theorem preFinished_iff (st : IntervalStatus) : preFinished st = true ↔ st = .finished := by
  simp [preFinished]

theorem prePausedOrInterrupted_iff (st : IntervalStatus) :
    prePausedOrInterrupted st = true ↔ st = .paused ∨ st = .interrupted := by
  simp [prePausedOrInterrupted]

theorem preActive3_iff (st : IntervalStatus) :
    preActive3 st = true ↔ st = .running ∨ st = .paused ∨ st = .interrupted := by
  simp [preActive3, or_assoc]

/-- SET clause of `finish_interval`. -/
def finishSet (duration_sec now : Int) (r : IntervalRow) : IntervalRow :=
  { r with status := .finished, worked_sec := duration_sec, ended_at := some now,
           run_started_at := none, heartbeat_at := none }

/-- SET clause of `resolve_interval`. -/
def resolveSet (resolution : IntervalStatus) (r : IntervalRow) : IntervalRow :=
  { r with status := resolution }

/-- SET clause of `pause_interval`. -/
def pauseSet (worked_sec : Int) (r : IntervalRow) : IntervalRow :=
  { r with status := .paused, worked_sec := worked_sec,
           run_started_at := none, heartbeat_at := none }

/-- SET clause of `resume_interval`. -/
def resumeSet (now : Int) (r : IntervalRow) : IntervalRow :=
  { r with status := .running, run_started_at := some now }

/-- SET clause of `cancel_interval`. -/
def cancelSet (worked_sec now : Int) (r : IntervalRow) : IntervalRow :=
  { r with status := .cancelled, worked_sec := worked_sec, ended_at := some now,
           run_started_at := none, heartbeat_at := none }

/-- SET clause of `update_heartbeat`. -/
def heartbeatSet (now : Int) (r : IntervalRow) : IntervalRow :=
  { r with heartbeat_at := some now }

/-- SET clause of `recover_running_interval`, including its CASE expression for
the heartbeat-based work credit. -/
def recoverSet (r : IntervalRow) : IntervalRow :=
  { r with status := .interrupted,
           worked_sec :=
             match r.heartbeat_at, r.run_started_at with
             | some hb, some t0 => min (r.worked_sec + (hb - t0)) r.duration_sec
             | _, _ => r.worked_sec,
           run_started_at := none, heartbeat_at := none }

/-- Method `_insert_event` of `Db`: append one audit event. -/
def Store.insertEvent (s : Store) (interval_id : Nat) (event_type : EventType)
    (event_at : Int) : Store :=
  { s with events := s.events ++ [⟨interval_id, event_type, event_at⟩] }

/-- Method `insert_interval` of `Db`: create a running interval with a
`started` event.
The partial unique index `idx_one_active` makes the INSERT raise
`IntegrityError` exactly when a row with an active status already exists, in
which case nothing is committed and `None` is returned. -/
def Store.insert_interval (s : Store) (duration_sec now : Int) : Option Nat × Store :=
  if s.intervals.any (fun r => isActive r.status) then
    (none, s)
  else
    (some s.nextId,
     { intervals := s.intervals ++
        [⟨s.nextId, .running, duration_sec, 0, some now, now, none, none⟩],
       events := s.events ++ [⟨s.nextId, .started, now⟩],
       nextId := s.nextId + 1 })

/-- Method `finish_interval` of `Db`: running → finished; freezes `worked_sec`
to the caller-supplied `duration_sec`, sets `ended_at`, clears the running
fields. -/
def Store.finish_interval (s : Store) (interval_id : Nat) (duration_sec now : Int) :
    Bool × Store :=
  let u := s.updateWhere interval_id preRunning (finishSet duration_sec now)
  if u.1 = 0 then (false, s)
  else (true, u.2.insertEvent interval_id .finished now)

/-- Method `resolve_interval` of `Db`: finished → `resolution`.  The first component is
`some b` for a normal return `b`; `none` models the `ValueError` raised by
`EventType(resolution)` when `resolution` has no event counterpart (the open
transaction is then rolled back, leaving the store unchanged). -/
def Store.resolve_interval (s : Store) (interval_id : Nat) (resolution : IntervalStatus)
    (now : Int) : Option Bool × Store :=
  let u := s.updateWhere interval_id preFinished (resolveSet resolution)
  if u.1 = 0 then (some false, s)
  else
    match statusToEventType resolution with
    | some e => (some true, u.2.insertEvent interval_id e now)
    | none => (none, s)

/-- Method `pause_interval` of `Db`: running → paused; freezes `worked_sec` to
the caller-supplied value, clears the running fields. -/
def Store.pause_interval (s : Store) (interval_id : Nat) (worked_sec now : Int) :
    Bool × Store :=
  let u := s.updateWhere interval_id preRunning (pauseSet worked_sec)
  if u.1 = 0 then (false, s)
  else (true, u.2.insertEvent interval_id .paused now)

/-- Method `resume_interval` of `Db`: paused/interrupted → running; starts a
new running segment at `now` (note: `heartbeat_at` is not touched). -/
def Store.resume_interval (s : Store) (interval_id : Nat) (now : Int) : Bool × Store :=
  let u := s.updateWhere interval_id prePausedOrInterrupted (resumeSet now)
  if u.1 = 0 then (false, s)
  else (true, u.2.insertEvent interval_id .resumed now)

/-- Method `cancel_interval` of `Db`: running/paused/interrupted → cancelled;
freezes
`worked_sec` to the caller-supplied value, sets `ended_at`, clears the running
fields. -/
def Store.cancel_interval (s : Store) (interval_id : Nat) (worked_sec now : Int) :
    Bool × Store :=
  let u := s.updateWhere interval_id preActive3 (cancelSet worked_sec now)
  if u.1 = 0 then (false, s)
  else (true, u.2.insertEvent interval_id .cancelled now)

/-- Method `update_heartbeat` of `Db`: set `heartbeat_at = now` on a running
interval.
Commits unconditionally, inserts no event and returns nothing (`None` in
Python), so this is the one mutation without a success/failure outcome. -/
def Store.update_heartbeat (s : Store) (interval_id : Nat) (now : Int) : Store :=
  (s.updateWhere interval_id preRunning (heartbeatSet now)).2

/-- Method `recover_running_interval` of `Db`: running → interrupted; credits
worked time
from the last heartbeat (SQL `CASE WHEN heartbeat_at IS NOT NULL AND
run_started_at IS NOT NULL THEN MIN(worked_sec + (heartbeat_at -
run_started_at), duration_sec) ELSE worked_sec END`), clears the running
fields.  `now` is used only for the `interrupted` event. -/
def Store.recover_running_interval (s : Store) (interval_id : Nat) (now : Int) :
    Bool × Store :=
  let u := s.updateWhere interval_id preRunning recoverSet
  if u.1 = 0 then (false, s)
  else (true, u.2.insertEvent interval_id .interrupted now)

/-! ### Timer worker (`timer_worker.py`) -/

/-- Constant `_HEARTBEAT_INTERVAL_SEC` from timer_worker.py. -/
def HEARTBEAT_INTERVAL_SEC : Int := 10

/-- How one iteration of the `while True` loop in `_run` ends. -/
inductive LoopExit
  | notRunning
  | finishedNow (resolved : Bool)
  | raceLost
  | poll
deriving DecidableEq, Repr

/-- One iteration of the `while True` body of `_run` in timer_worker.py.

`row` is the result of the iteration's `fetch_interval` read; `s` is the store
the iteration's writes act on.  Sequentially `row = s.find interval_id`;
letting them differ models a concurrent actor committing between the read and
the writes.  `resolution` is what `send_notification()` returns after a
successful finish (`none` on timeout/failure) and `resolveAt` is the second
`int(time.time())` call used for `resolve_interval`.  Returns how the
iteration ended (`poll` = sleep and loop again), the store after the
iteration's writes, and the new `last_heartbeat`. -/
def timerIteration (interval_id : Nat) (row : Option IntervalRow) (now lastHeartbeat : Int)
    (resolution : Option IntervalStatus) (resolveAt : Int) (s : Store) :
    LoopExit × Store × Int :=
  match row with
  | none => (.notRunning, s, lastHeartbeat)
  | some r =>
    if r.status ≠ .running then (.notRunning, s, lastHeartbeat)
    else
      let s1 := if now - lastHeartbeat ≥ HEARTBEAT_INTERVAL_SEC
                then s.update_heartbeat interval_id now else s
      let lhb := if now - lastHeartbeat ≥ HEARTBEAT_INTERVAL_SEC then now else lastHeartbeat
      if r.effective_worked now ≥ r.duration_sec then
        let fr := s1.finish_interval interval_id r.duration_sec now
        if fr.1 then
          match resolution with
          | some res => (.finishedNow true, (fr.2.resolve_interval interval_id res resolveAt).2, lhb)
          | none => (.finishedNow false, fr.2, lhb)
        else (.raceLost, s1, lhb)
      else (.poll, s1, lhb)

/-! ### Process liveness check (`is_alive` in timer_worker.py) -/

/-- Outcome of `os.kill(pid, 0)`: success, `ProcessLookupError`, or
`PermissionError`. -/
inductive KillResult
  | ok
  | noSuchProcess
  | permissionDenied
deriving DecidableEq, Repr

/-- The operating-system facts `is_alive` consults: whether the PID file
exists, the integer parsed from it (`none` = read or parse raises
`OSError`/`ValueError`), the outcome of `os.kill(pid, 0)`, and the stdout of
`ps -p pid -o comm=` (`none` = `subprocess.run` raises `OSError`). -/
structure LivenessEnv where
  pidFileExists : Bool
  pidFileContent : Option Int
  kill : Int → KillResult
  psComm : Int → Option String

/-- Does `pat` occur at the head of the character list? -/
def startsWithChars : List Char → List Char → Bool
  | [], _ => true
  | _ :: _, [] => false
  | p :: ps, c :: cs => p == c && startsWithChars ps cs

/-- Does `pat` occur as a contiguous run anywhere in the character list? -/
def occursIn : List Char → List Char → Bool
  | pat, [] => pat.isEmpty
  | pat, c :: cs => startsWithChars pat (c :: cs) || occursIn pat cs

/-- Python `"python" in out.lower()`. -/
def pythonIn (out : String) : Bool :=
  occursIn ("python".toList) (out.toList.map Char.toLower)

/-- Function `is_alive` from timer_worker.py: PID file present, process exists
(`PermissionError` falls through), and `ps` reports a python process. -/
def is_alive (env : LivenessEnv) : Bool :=
  if !env.pidFileExists then false
  else
    match env.pidFileContent with
    | none => false
    | some pid =>
      match env.kill pid with
      | .noSuchProcess => false
      | _ =>
        match env.psComm pid with
        | none => false
        | some out => pythonIn out

/-! ### Reachability by raw store operations

`DbOp` is one call of a `Db` mutation with arbitrary arguments; `Reachable`
is any sequence of such calls starting from the freshly migrated database. -/

/-- One invocation of a `Db` mutation, with its arguments. -/
inductive DbOp
  | create (duration_sec now : Int)
  | finish (id : Nat) (duration_sec now : Int)
  | resolve (id : Nat) (resolution : IntervalStatus) (now : Int)
  | pause (id : Nat) (worked_sec now : Int)
  | resume (id : Nat) (now : Int)
  | cancel (id : Nat) (worked_sec now : Int)
  | heartbeat (id : Nat) (now : Int)
  | recover (id : Nat) (now : Int)
deriving DecidableEq, Repr

/-- The store after one `Db` call (the call's return value is dropped; a
rolled-back call leaves the store unchanged by construction). -/
def applyDbOp (op : DbOp) (s : Store) : Store :=
  match op with
  | .create d now => (s.insert_interval d now).2
  | .finish id d now => (s.finish_interval id d now).2
  | .resolve id res now => (s.resolve_interval id res now).2
  | .pause id w now => (s.pause_interval id w now).2
  | .resume id now => (s.resume_interval id now).2
  | .cancel id w now => (s.cancel_interval id w now).2
  | .heartbeat id now => s.update_heartbeat id now
  | .recover id now => (s.recover_running_interval id now).2

/-- Stores reachable from the empty database by any sequence of `Db` calls. -/
inductive Reachable : Store → Prop
  | empty : Reachable emptyStore
  | step (s : Store) (op : DbOp) : Reachable s → Reachable (applyDbOp op s)

/-- Number of rows whose status is in the active set. -/
def Store.activeCount (s : Store) : Nat :=
  (s.intervals.filter (fun r => isActive r.status)).length

/-! ### Generic lemmas about conditional mutations -/

/-- Some row matches a conditional mutation's WHERE clause. -/
def hasMatch (s : Store) (interval_id : Nat) (pre : IntervalStatus → Bool) : Prop :=
  ∃ r ∈ s.intervals, r.id = interval_id ∧ pre r.status = true

theorem updateWhere_fst_eq_zero (s : Store) (interval_id : Nat)
    (pre : IntervalStatus → Bool) (f : IntervalRow → IntervalRow) :
    (s.updateWhere interval_id pre f).1 = 0 ↔ ¬ hasMatch s interval_id pre := by
  simp [Store.updateWhere, hasMatch, List.length_eq_zero, List.filter_eq_nil_iff]

theorem updateWhere_snd_events (s : Store) (interval_id : Nat)
    (pre : IntervalStatus → Bool) (f : IntervalRow → IntervalRow) :
    (s.updateWhere interval_id pre f).2.events = s.events := rfl

theorem updateWhere_snd_nextId (s : Store) (interval_id : Nat)
    (pre : IntervalStatus → Bool) (f : IntervalRow → IntervalRow) :
    (s.updateWhere interval_id pre f).2.nextId = s.nextId := rfl

theorem map_id_of_mem_eq {α : Type} {l : List α} {g : α → α}
    (h : ∀ a ∈ l, g a = a) : l.map g = l := by
  induction l with
  | nil => rfl
  | cons x xs ih =>
    simp only [List.map_cons, h x (List.mem_cons_self x xs)]
    rw [ih fun a ha => h a (List.mem_cons_of_mem x ha)]

theorem updateWhere_snd_of_no_match {s : Store} {interval_id : Nat}
    {pre : IntervalStatus → Bool} {f : IntervalRow → IntervalRow}
    (h : ¬ hasMatch s interval_id pre) :
    (s.updateWhere interval_id pre f).2 = s := by
  obtain ⟨ints, evs, nid⟩ := s
  simp only [Store.updateWhere]
  congr 1
  apply map_id_of_mem_eq
  intro a ha
  rw [if_neg]
  intro hc
  exact h ⟨a, ha, by simpa using hc⟩

theorem eq_of_mem_of_id_eq {l : List IntervalRow}
    (hu : l.Pairwise (fun a b => a.id ≠ b.id)) {a b : IntervalRow}
    (ha : a ∈ l) (hb : b ∈ l) (h : a.id = b.id) : a = b := by
  induction l with
  | nil => cases ha
  | cons x xs ih =>
    rcases List.pairwise_cons.1 hu with ⟨hx, hxs⟩
    rcases List.mem_cons.1 ha with rfl | ha' <;> rcases List.mem_cons.1 hb with rfl | hb'
    · rfl
    · exact absurd h (hx b hb')
    · exact absurd h.symm (hx a ha')
    · exact ih hxs ha' hb'

theorem updateWhere_target {s : Store} {interval_id : Nat} {pre : IntervalStatus → Bool}
    {f : IntervalRow → IntervalRow}
    (hu : s.intervals.Pairwise (fun a b => a.id ≠ b.id)) {r : IntervalRow}
    (hr : r ∈ s.intervals) (hid : r.id = interval_id) (hpre : pre r.status = true) :
    ∀ r' ∈ (s.updateWhere interval_id pre f).2.intervals, r'.id = interval_id → r' = f r := by
  intro r' hr' hrid
  rcases List.mem_map.1 hr' with ⟨a, ha, rfl⟩
  by_cases hc : (a.id == interval_id && pre a.status) = true
  · rw [if_pos hc]
    have haid : a.id = interval_id := by
      simp only [Bool.and_eq_true, beq_iff_eq] at hc
      exact hc.1
    have : a = r := eq_of_mem_of_id_eq hu ha hr (haid.trans hid.symm)
    rw [this]
  · rw [if_neg hc] at hrid ⊢
    have : a = r := eq_of_mem_of_id_eq hu ha hr (hrid.trans hid.symm)
    subst this
    exact absurd (by simp [hid, hpre]) hc

theorem updateWhere_mem_target {s : Store} {interval_id : Nat} {pre : IntervalStatus → Bool}
    {f : IntervalRow → IntervalRow} {r : IntervalRow}
    (hr : r ∈ s.intervals) (hid : r.id = interval_id) (hpre : pre r.status = true) :
    f r ∈ (s.updateWhere interval_id pre f).2.intervals := by
  have hc : (r.id == interval_id && pre r.status) = true := by simp [hid, hpre]
  have h := List.mem_map_of_mem
    (fun a => if a.id == interval_id && pre a.status then f a else a) hr
  simp only [hc, if_true] at h
  exact h

theorem updateWhere_mem_frame {s : Store} {interval_id : Nat} {pre : IntervalStatus → Bool}
    {f : IntervalRow → IntervalRow} {r : IntervalRow}
    (hr : r ∈ s.intervals) (h : ¬(r.id = interval_id ∧ pre r.status = true)) :
    r ∈ (s.updateWhere interval_id pre f).2.intervals := by
  have hc : (r.id == interval_id && pre r.status) = false := by
    cases hb : (r.id == interval_id && pre r.status)
    · rfl
    · exact absurd (by simpa using hb) h
  have hm := List.mem_map_of_mem
    (fun a => if a.id == interval_id && pre a.status then f a else a) hr
  simp only [hc, Bool.false_eq_true, if_false] at hm
  exact hm

theorem mem_updateWhere_intervals {s : Store} {interval_id : Nat}
    {pre : IntervalStatus → Bool} {f : IntervalRow → IntervalRow} {r' : IntervalRow}
    (h : r' ∈ (s.updateWhere interval_id pre f).2.intervals) :
    ∃ a ∈ s.intervals, r' = if a.id == interval_id && pre a.status then f a else a := by
  rcases List.mem_map.1 h with ⟨a, ha, heq⟩
  exact ⟨a, ha, heq.symm⟩

theorem filterlen_map_le {l : List IntervalRow} {g : IntervalRow → IntervalRow}
    {p : IntervalRow → Bool} (h : ∀ a ∈ l, p (g a) = true → p a = true) :
    ((l.map g).filter p).length ≤ (l.filter p).length := by
  induction l with
  | nil => simp
  | cons x xs ih =>
    have ihx := ih fun a ha hpa => h a (List.mem_cons_of_mem x ha) hpa
    simp only [List.map_cons, List.filter_cons]
    by_cases hgx : p (g x) = true
    · have hpx : p x = true := h x (List.mem_cons_self x xs) hgx
      simp only [hgx, hpx, if_pos, List.length_cons]
      exact Nat.succ_le_succ ihx
    · simp only [Bool.not_eq_true] at hgx
      simp only [hgx, Bool.false_eq_true, if_false]
      by_cases hpx : p x = true
      · simp only [hpx, if_pos, List.length_cons]
        exact Nat.le_succ_of_le ihx
      · simp only [Bool.not_eq_true] at hpx
        simp only [hpx, Bool.false_eq_true, if_false]
        exact ihx

/-! ### Concrete sample data used by witnesses -/

/-- Sample running row: id 1, 25-minute target, 10 s banked, segment started at 100. -/
def runningRowW : IntervalRow := ⟨1, .running, 1500, 10, some 100, 100, none, none⟩

/-- Store obtained by one successful create at time 100 with duration 1500. -/
def storeOneRunning : Store := (emptyStore.insert_interval 1500 100).2

/-- C3: for a running row with `run_started_at = T0` and banked `worked_sec = W`,
`effective_worked now` is `min (W + (now - T0)) duration_sec`; for any
non-running status it is `worked_sec` verbatim. -/
theorem effective_worked_spec (r : IntervalRow) (now t0 : Int) :
    (r.status = .running → r.run_started_at = some t0 →
      r.effective_worked now = min (r.worked_sec + (now - t0)) r.duration_sec) ∧
    (r.status ≠ .running → r.effective_worked now = r.worked_sec) := by
  constructor
  · intro h1 h2
    simp [IntervalRow.effective_worked, h1, h2]
  · intro h1
    unfold IntervalRow.effective_worked
    cases hs : r.status <;> cases hrs : r.run_started_at <;> simp_all

/-- Witness for C3: concrete running row, 30 s into the current segment. -/
theorem effective_worked_spec_witness :
    runningRowW.effective_worked 130 = min (10 + (130 - 100)) 1500 :=
  (effective_worked_spec runningRowW 130 100).1 rfl rfl

/-- C10: `update_heartbeat` touches only `heartbeat_at`, and only on a row with
the given id in status running; on an absent id or any non-running status the
store is unchanged; it never appends an audit event (and, per its type in
db.py, returns no success/failure outcome at all). -/
theorem update_heartbeat_frame (s : Store) (interval_id : Nat) (now : Int) :
    (s.update_heartbeat interval_id now).events = s.events ∧
    (s.update_heartbeat interval_id now).nextId = s.nextId ∧
    ((∀ r ∈ s.intervals, ¬(r.id = interval_id ∧ r.status = .running)) →
      s.update_heartbeat interval_id now = s) ∧
    ∀ r ∈ s.intervals,
      ((r.id = interval_id ∧ r.status = .running) →
        { r with heartbeat_at := some now } ∈ (s.update_heartbeat interval_id now).intervals) ∧
      (¬(r.id = interval_id ∧ r.status = .running) →
        r ∈ (s.update_heartbeat interval_id now).intervals) := by
  refine ⟨rfl, rfl, ?_, ?_⟩
  · intro h
    exact updateWhere_snd_of_no_match
      (fun ⟨r, hr, hc⟩ => h r hr ⟨hc.1, (preRunning_iff _).1 hc.2⟩)
  · intro r hr
    constructor
    · rintro ⟨hid, hst⟩
      exact updateWhere_mem_target hr hid ((preRunning_iff _).2 hst)
    · intro h
      exact updateWhere_mem_frame hr (fun hc => h ⟨hc.1, (preRunning_iff _).1 hc.2⟩)

/-- Witness for C10: a written heartbeat on the one-running-row store. -/
theorem update_heartbeat_frame_witness :
    (storeOneRunning.update_heartbeat 1 110).events = storeOneRunning.events ∧
    ({ id := 1, status := .running, duration_sec := 1500, worked_sec := 0,
       run_started_at := some 100, started_at := 100, ended_at := none,
       heartbeat_at := some 110 } : IntervalRow) ∈
      (storeOneRunning.update_heartbeat 1 110).intervals := by
  have h := update_heartbeat_frame storeOneRunning 1 110
  refine ⟨h.1, ?_⟩
  exact (h.2.2.2 ⟨1, .running, 1500, 0, some 100, 100, none, none⟩ (by decide)).1 ⟨rfl, rfl⟩

theorem updateWhere_fst_ne_zero {s : Store} {interval_id : Nat}
    {pre : IntervalStatus → Bool} {f : IntervalRow → IntervalRow}
    (hm : hasMatch s interval_id pre) : ¬((s.updateWhere interval_id pre f).1 = 0) :=
  fun h0 => (updateWhere_fst_eq_zero s interval_id pre f).1 h0 hm

/-- Store with one crashed running interval: segment started at 1000, last
heartbeat written at 1012, worker then died. -/
def crashedStore : Store :=
  ⟨[⟨1, .running, 1500, 0, some 1000, 1000, none, some 1012⟩], [⟨1, .started, 1000⟩], 2⟩

/-- C4: on a running interval, `recover_running_interval` reports success,
appends exactly one `interrupted` event, sets the row's status to interrupted,
clears `run_started_at` and `heartbeat_at`, and credits
`min (worked_sec + (heartbeat_at - run_started_at)) duration_sec` when a
heartbeat is present, leaving `worked_sec` unchanged when it is absent. -/
theorem recover_spec (s : Store) (interval_id : Nat) (now : Int) (r : IntervalRow)
    (hu : s.intervals.Pairwise (fun a b => a.id ≠ b.id))
    (hr : r ∈ s.intervals) (hid : r.id = interval_id) (hrun : r.status = .running) :
    (s.recover_running_interval interval_id now).1 = true ∧
    (s.recover_running_interval interval_id now).2.events
      = s.events ++ [⟨interval_id, .interrupted, now⟩] ∧
    ∀ r' ∈ (s.recover_running_interval interval_id now).2.intervals, r'.id = interval_id →
      r'.status = .interrupted ∧ r'.run_started_at = none ∧ r'.heartbeat_at = none ∧
      (∀ hb t0, r.heartbeat_at = some hb → r.run_started_at = some t0 →
        r'.worked_sec = min (r.worked_sec + (hb - t0)) r.duration_sec) ∧
      (r.heartbeat_at = none → r'.worked_sec = r.worked_sec) := by
  have hpre : preRunning r.status = true := (preRunning_iff _).2 hrun
  have hnz : ¬((s.updateWhere interval_id preRunning recoverSet).1 = 0) :=
    updateWhere_fst_ne_zero ⟨r, hr, hid, hpre⟩
  have hres : s.recover_running_interval interval_id now =
      (true, (s.updateWhere interval_id preRunning recoverSet).2.insertEvent
        interval_id .interrupted now) := by
    simp only [Store.recover_running_interval]
    rw [if_neg hnz]
  rw [hres]
  refine ⟨rfl, ?_, ?_⟩
  · simp [Store.insertEvent, updateWhere_snd_events]
  · intro r' hr' hrid
    have heq : r' = recoverSet r := updateWhere_target hu hr hid hpre r' hr' hrid
    subst heq
    refine ⟨rfl, rfl, rfl, ?_, ?_⟩
    · intro hb t0 hhb ht0
      simp [recoverSet, hhb, ht0]
    · intro hhb
      simp [recoverSet, hhb]

/-- Witness for C4, the spec's crash scenario: heartbeat at T+12, recovery at
T+50 credits exactly 12 seconds and the status becomes interrupted. -/
theorem recover_spec_witness :
    (crashedStore.recover_running_interval 1 1050).1 = true ∧
    ∀ r' ∈ (crashedStore.recover_running_interval 1 1050).2.intervals, r'.id = 1 →
      r'.status = .interrupted ∧ r'.worked_sec = 12 := by
  have h := recover_spec crashedStore 1 1050
    ⟨1, .running, 1500, 0, some 1000, 1000, none, some 1012⟩
    (by simp [crashedStore]) (by simp [crashedStore]) rfl rfl
  refine ⟨h.1, fun r' hr' hrid => ?_⟩
  have h3 := h.2.2 r' hr' hrid
  refine ⟨h3.1, ?_⟩
  have h4 := h3.2.2.2.1 1012 1000 rfl rfl
  rw [h4]
  decide

/-- Store with one finished interval awaiting resolution. -/
def finishedStore : Store :=
  ⟨[⟨1, .finished, 1500, 1500, none, 1000, some 2500, none⟩],
   [⟨1, .started, 1000⟩, ⟨1, .finished, 2500⟩], 2⟩

/-- C7: with `resolution ∈ {completed, abandoned}`, `resolve_interval` succeeds
exactly when the target row is finished; on success only `status` changes (in
particular `ended_at` and `worked_sec` are untouched), exactly one matching
event is appended, and any second resolve on the same id then fails with a
precondition failure and changes nothing. -/
theorem resolve_frame_spec (s : Store) (interval_id : Nat) (res : IntervalStatus)
    (now : Int) (r : IntervalRow)
    (hres : res = .completed ∨ res = .abandoned)
    (hu : s.intervals.Pairwise (fun a b => a.id ≠ b.id))
    (hr : r ∈ s.intervals) (hid : r.id = interval_id) :
    (r.status = .finished →
      ∃ e, statusToEventType res = some e ∧
        (s.resolve_interval interval_id res now).1 = some true ∧
        (s.resolve_interval interval_id res now).2.events
          = s.events ++ [⟨interval_id, e, now⟩] ∧
        resolveSet res r ∈ (s.resolve_interval interval_id res now).2.intervals ∧
        (∀ r' ∈ (s.resolve_interval interval_id res now).2.intervals, r'.id = interval_id →
          r' = resolveSet res r) ∧
        ∀ res2 now2,
          (s.resolve_interval interval_id res now).2.resolve_interval interval_id res2 now2
            = (some false, (s.resolve_interval interval_id res now).2)) ∧
    (r.status ≠ .finished → s.resolve_interval interval_id res now = (some false, s)) := by
  constructor
  · intro hfin
    obtain ⟨e, he⟩ : ∃ e, statusToEventType res = some e := by
      rcases hres with rfl | rfl
      · exact ⟨.completed, rfl⟩
      · exact ⟨.abandoned, rfl⟩
    have hpre : preFinished r.status = true := (preFinished_iff _).2 hfin
    have hnz : ¬((s.updateWhere interval_id preFinished (resolveSet res)).1 = 0) :=
      updateWhere_fst_ne_zero ⟨r, hr, hid, hpre⟩
    have hstep : s.resolve_interval interval_id res now =
        (some true, (s.updateWhere interval_id preFinished (resolveSet res)).2.insertEvent
          interval_id e now) := by
      simp only [Store.resolve_interval, he]
      rw [if_neg hnz]
    refine ⟨e, he, ?_, ?_, ?_, ?_, ?_⟩
    · rw [hstep]
    · rw [hstep]
      simp [Store.insertEvent, updateWhere_snd_events]
    · rw [hstep]
      exact updateWhere_mem_target hr hid hpre
    · rw [hstep]
      exact fun r' hr' hrid => updateWhere_target hu hr hid hpre r' hr' hrid
    · intro res2 now2
      rw [hstep]
      have hall : ∀ r' ∈ (s.resolve_interval interval_id res now).2.intervals,
          r'.id = interval_id → r' = resolveSet res r := by
        rw [hstep]
        exact fun r' hr' hrid => updateWhere_target hu hr hid hpre r' hr' hrid
      rw [hstep] at hall
      have hnomatch : ¬ hasMatch
          ((s.updateWhere interval_id preFinished (resolveSet res)).2.insertEvent
            interval_id e now) interval_id preFinished := by
        rintro ⟨a, ha, haid, hafin⟩
        have ha2 : a = resolveSet res r := hall a ha haid
        rw [ha2] at hafin
        have : res = .finished := (preFinished_iff _).1 hafin
        rcases hres with rfl | rfl <;> cases this
      have h0 := (updateWhere_fst_eq_zero _ interval_id preFinished (resolveSet res2)).2 hnomatch
      simp only [Store.resolve_interval]
      rw [if_pos h0]
  · intro hne
    have hnomatch : ¬ hasMatch s interval_id preFinished := by
      rintro ⟨a, ha, haid, hafin⟩
      have ha2 : a = r := eq_of_mem_of_id_eq hu ha hr (haid.trans hid.symm)
      rw [ha2] at hafin
      exact hne ((preFinished_iff _).1 hafin)
    have h0 := (updateWhere_fst_eq_zero s interval_id preFinished (resolveSet res)).2 hnomatch
    simp only [Store.resolve_interval]
    rw [if_pos h0]

/-- Witness for C7: resolving the finished store as completed succeeds, and a
second resolve fails without changing anything. -/
theorem resolve_frame_spec_witness :
    (finishedStore.resolve_interval 1 .completed 3000).1 = some true ∧
    (finishedStore.resolve_interval 1 .completed 3000).2.resolve_interval 1 .completed 3100
      = (some false, (finishedStore.resolve_interval 1 .completed 3000).2) := by
  have h := (resolve_frame_spec finishedStore 1 .completed 3000
    ⟨1, .finished, 1500, 1500, none, 1000, some 2500, none⟩
    (Or.inl rfl) (by simp [finishedStore]) (by simp [finishedStore]) rfl).1 rfl
  obtain ⟨e, he, h1, h2, h3, h4, h5⟩ := h
  exact ⟨h1, h5 .completed 3100⟩

/-! ### Step equations for each mutation -/

theorem finish_interval_fail (s : Store) (interval_id : Nat) (d now : Int)
    (h : ¬ hasMatch s interval_id preRunning) :
    s.finish_interval interval_id d now = (false, s) := by
  simp only [Store.finish_interval]
  rw [if_pos ((updateWhere_fst_eq_zero s interval_id preRunning (finishSet d now)).2 h)]

theorem finish_interval_success (s : Store) (interval_id : Nat) (d now : Int)
    (hm : hasMatch s interval_id preRunning) :
    s.finish_interval interval_id d now =
      (true, (s.updateWhere interval_id preRunning (finishSet d now)).2.insertEvent
        interval_id .finished now) := by
  simp only [Store.finish_interval]
  rw [if_neg (updateWhere_fst_ne_zero hm)]

theorem resolve_interval_fail (s : Store) (interval_id : Nat) (res : IntervalStatus)
    (now : Int) (h : ¬ hasMatch s interval_id preFinished) :
    s.resolve_interval interval_id res now = (some false, s) := by
  simp only [Store.resolve_interval]
  rw [if_pos ((updateWhere_fst_eq_zero s interval_id preFinished (resolveSet res)).2 h)]

theorem resolve_interval_success (s : Store) (interval_id : Nat) (res : IntervalStatus)
    (now : Int) (e : EventType) (hm : hasMatch s interval_id preFinished)
    (he : statusToEventType res = some e) :
    s.resolve_interval interval_id res now =
      (some true, (s.updateWhere interval_id preFinished (resolveSet res)).2.insertEvent
        interval_id e now) := by
  simp only [Store.resolve_interval, he]
  rw [if_neg (updateWhere_fst_ne_zero hm)]

theorem resolve_interval_error (s : Store) (interval_id : Nat) (res : IntervalStatus)
    (now : Int) (hm : hasMatch s interval_id preFinished)
    (he : statusToEventType res = none) :
    s.resolve_interval interval_id res now = (none, s) := by
  simp only [Store.resolve_interval, he]
  rw [if_neg (updateWhere_fst_ne_zero hm)]

theorem pause_interval_fail (s : Store) (interval_id : Nat) (w now : Int)
    (h : ¬ hasMatch s interval_id preRunning) :
    s.pause_interval interval_id w now = (false, s) := by
  simp only [Store.pause_interval]
  rw [if_pos ((updateWhere_fst_eq_zero s interval_id preRunning (pauseSet w)).2 h)]

theorem pause_interval_success (s : Store) (interval_id : Nat) (w now : Int)
    (hm : hasMatch s interval_id preRunning) :
    s.pause_interval interval_id w now =
      (true, (s.updateWhere interval_id preRunning (pauseSet w)).2.insertEvent
        interval_id .paused now) := by
  simp only [Store.pause_interval]
  rw [if_neg (updateWhere_fst_ne_zero hm)]

theorem resume_interval_fail (s : Store) (interval_id : Nat) (now : Int)
    (h : ¬ hasMatch s interval_id prePausedOrInterrupted) :
    s.resume_interval interval_id now = (false, s) := by
  simp only [Store.resume_interval]
  rw [if_pos ((updateWhere_fst_eq_zero s interval_id prePausedOrInterrupted (resumeSet now)).2 h)]

theorem resume_interval_success (s : Store) (interval_id : Nat) (now : Int)
    (hm : hasMatch s interval_id prePausedOrInterrupted) :
    s.resume_interval interval_id now =
      (true, (s.updateWhere interval_id prePausedOrInterrupted (resumeSet now)).2.insertEvent
        interval_id .resumed now) := by
  simp only [Store.resume_interval]
  rw [if_neg (updateWhere_fst_ne_zero hm)]

theorem cancel_interval_fail (s : Store) (interval_id : Nat) (w now : Int)
    (h : ¬ hasMatch s interval_id preActive3) :
    s.cancel_interval interval_id w now = (false, s) := by
  simp only [Store.cancel_interval]
  rw [if_pos ((updateWhere_fst_eq_zero s interval_id preActive3 (cancelSet w now)).2 h)]

theorem cancel_interval_success (s : Store) (interval_id : Nat) (w now : Int)
    (hm : hasMatch s interval_id preActive3) :
    s.cancel_interval interval_id w now =
      (true, (s.updateWhere interval_id preActive3 (cancelSet w now)).2.insertEvent
        interval_id .cancelled now) := by
  simp only [Store.cancel_interval]
  rw [if_neg (updateWhere_fst_ne_zero hm)]

theorem recover_interval_fail (s : Store) (interval_id : Nat) (now : Int)
    (h : ¬ hasMatch s interval_id preRunning) :
    s.recover_running_interval interval_id now = (false, s) := by
  simp only [Store.recover_running_interval]
  rw [if_pos ((updateWhere_fst_eq_zero s interval_id preRunning recoverSet).2 h)]

theorem recover_interval_success (s : Store) (interval_id : Nat) (now : Int)
    (hm : hasMatch s interval_id preRunning) :
    s.recover_running_interval interval_id now =
      (true, (s.updateWhere interval_id preRunning recoverSet).2.insertEvent
        interval_id .interrupted now) := by
  simp only [Store.recover_running_interval]
  rw [if_neg (updateWhere_fst_ne_zero hm)]

theorem update_heartbeat_eq (s : Store) (interval_id : Nat) (now : Int) :
    s.update_heartbeat interval_id now =
      (s.updateWhere interval_id preRunning (heartbeatSet now)).2 := rfl

theorem insert_interval_blocked (s : Store) (d now : Int)
    (h : ∃ r ∈ s.intervals, isActive r.status = true) :
    s.insert_interval d now = (none, s) := by
  simp only [Store.insert_interval]
  rw [if_pos (List.any_eq_true.2 (by rcases h with ⟨r, hr, hact⟩; exact ⟨r, hr, hact⟩))]

theorem insert_interval_free (s : Store) (d now : Int)
    (h : ¬ ∃ r ∈ s.intervals, isActive r.status = true) :
    s.insert_interval d now =
      (some s.nextId,
       { intervals := s.intervals ++ [⟨s.nextId, .running, d, 0, some now, now, none, none⟩],
         events := s.events ++ [⟨s.nextId, .started, now⟩],
         nextId := s.nextId + 1 }) := by
  simp only [Store.insert_interval]
  rw [if_neg (fun hc => h (by rcases List.any_eq_true.1 hc with ⟨r, hr, hact⟩; exact ⟨r, hr, hact⟩))]

/-- C2: every status-transition mutation (finish, resolve, pause, resume,
cancel, recover) is a conditional mutation: when no row with the given id
satisfies its WHERE-clause status precondition it returns its distinct failure
outcome and the store — rows and event log — is exactly unchanged; when the
precondition holds it reports success, the row is transformed by the
operation's SET clause and exactly one audit event of the matching type is
appended, both visible in the same resulting store (one indivisible unit). -/
theorem conditional_mutation_atomic (s : Store) (interval_id : Nat)
    (d w now : Int) (res : IntervalStatus)
    (hres : res = .completed ∨ res = .abandoned) :
    ((¬ hasMatch s interval_id preRunning →
        s.finish_interval interval_id d now = (false, s)) ∧
     (hasMatch s interval_id preRunning →
        (s.finish_interval interval_id d now).1 = true ∧
        (s.finish_interval interval_id d now).2.events
          = s.events ++ [⟨interval_id, .finished, now⟩] ∧
        ∀ r ∈ s.intervals, r.id = interval_id → r.status = .running →
          finishSet d now r ∈ (s.finish_interval interval_id d now).2.intervals)) ∧
    ((¬ hasMatch s interval_id preFinished →
        s.resolve_interval interval_id res now = (some false, s)) ∧
     (hasMatch s interval_id preFinished →
        ∃ e, statusToEventType res = some e ∧
          (s.resolve_interval interval_id res now).1 = some true ∧
          (s.resolve_interval interval_id res now).2.events
            = s.events ++ [⟨interval_id, e, now⟩] ∧
          ∀ r ∈ s.intervals, r.id = interval_id → r.status = .finished →
            resolveSet res r ∈ (s.resolve_interval interval_id res now).2.intervals)) ∧
    ((¬ hasMatch s interval_id preRunning →
        s.pause_interval interval_id w now = (false, s)) ∧
     (hasMatch s interval_id preRunning →
        (s.pause_interval interval_id w now).1 = true ∧
        (s.pause_interval interval_id w now).2.events
          = s.events ++ [⟨interval_id, .paused, now⟩] ∧
        ∀ r ∈ s.intervals, r.id = interval_id → r.status = .running →
          pauseSet w r ∈ (s.pause_interval interval_id w now).2.intervals)) ∧
    ((¬ hasMatch s interval_id prePausedOrInterrupted →
        s.resume_interval interval_id now = (false, s)) ∧
     (hasMatch s interval_id prePausedOrInterrupted →
        (s.resume_interval interval_id now).1 = true ∧
        (s.resume_interval interval_id now).2.events
          = s.events ++ [⟨interval_id, .resumed, now⟩] ∧
        ∀ r ∈ s.intervals, r.id = interval_id → (r.status = .paused ∨ r.status = .interrupted) →
          resumeSet now r ∈ (s.resume_interval interval_id now).2.intervals)) ∧
    ((¬ hasMatch s interval_id preActive3 →
        s.cancel_interval interval_id w now = (false, s)) ∧
     (hasMatch s interval_id preActive3 →
        (s.cancel_interval interval_id w now).1 = true ∧
        (s.cancel_interval interval_id w now).2.events
          = s.events ++ [⟨interval_id, .cancelled, now⟩] ∧
        ∀ r ∈ s.intervals, r.id = interval_id →
          (r.status = .running ∨ r.status = .paused ∨ r.status = .interrupted) →
          cancelSet w now r ∈ (s.cancel_interval interval_id w now).2.intervals)) ∧
    ((¬ hasMatch s interval_id preRunning →
        s.recover_running_interval interval_id now = (false, s)) ∧
     (hasMatch s interval_id preRunning →
        (s.recover_running_interval interval_id now).1 = true ∧
        (s.recover_running_interval interval_id now).2.events
          = s.events ++ [⟨interval_id, .interrupted, now⟩] ∧
        ∀ r ∈ s.intervals, r.id = interval_id → r.status = .running →
          recoverSet r ∈ (s.recover_running_interval interval_id now).2.intervals)) := by
  obtain ⟨e, he⟩ : ∃ e, statusToEventType res = some e := by
    rcases hres with rfl | rfl
    · exact ⟨.completed, rfl⟩
    · exact ⟨.abandoned, rfl⟩
  refine ⟨⟨finish_interval_fail s interval_id d now, fun hm => ?_⟩,
          ⟨resolve_interval_fail s interval_id res now, fun hm => ?_⟩,
          ⟨pause_interval_fail s interval_id w now, fun hm => ?_⟩,
          ⟨resume_interval_fail s interval_id now, fun hm => ?_⟩,
          ⟨cancel_interval_fail s interval_id w now, fun hm => ?_⟩,
          ⟨recover_interval_fail s interval_id now, fun hm => ?_⟩⟩
  · rw [finish_interval_success s interval_id d now hm]
    refine ⟨rfl, by simp [Store.insertEvent, updateWhere_snd_events], ?_⟩
    intro r hr hid hst
    exact updateWhere_mem_target hr hid ((preRunning_iff _).2 hst)
  · rw [resolve_interval_success s interval_id res now e hm he]
    refine ⟨e, he, rfl, by simp [Store.insertEvent, updateWhere_snd_events], ?_⟩
    intro r hr hid hst
    exact updateWhere_mem_target hr hid ((preFinished_iff _).2 hst)
  · rw [pause_interval_success s interval_id w now hm]
    refine ⟨rfl, by simp [Store.insertEvent, updateWhere_snd_events], ?_⟩
    intro r hr hid hst
    exact updateWhere_mem_target hr hid ((preRunning_iff _).2 hst)
  · rw [resume_interval_success s interval_id now hm]
    refine ⟨rfl, by simp [Store.insertEvent, updateWhere_snd_events], ?_⟩
    intro r hr hid hst
    exact updateWhere_mem_target hr hid ((prePausedOrInterrupted_iff _).2 hst)
  · rw [cancel_interval_success s interval_id w now hm]
    refine ⟨rfl, by simp [Store.insertEvent, updateWhere_snd_events], ?_⟩
    intro r hr hid hst
    exact updateWhere_mem_target hr hid ((preActive3_iff _).2 hst)
  · rw [recover_interval_success s interval_id now hm]
    refine ⟨rfl, by simp [Store.insertEvent, updateWhere_snd_events], ?_⟩
    intro r hr hid hst
    exact updateWhere_mem_target hr hid ((preRunning_iff _).2 hst)

/-- Witness for C2: finishing the one-running-row store succeeds atomically;
pausing a store with no matching running row fails and changes nothing. -/
theorem conditional_mutation_atomic_witness :
    (storeOneRunning.finish_interval 1 1500 1600).1 = true ∧
    (storeOneRunning.finish_interval 1 1500 1600).2.events
      = storeOneRunning.events ++ [⟨1, .finished, 1600⟩] ∧
    finishedStore.pause_interval 1 0 3000 = (false, finishedStore) := by
  have h := conditional_mutation_atomic storeOneRunning 1 1500 0 1600 .completed (Or.inl rfl)
  have hm : hasMatch storeOneRunning 1 preRunning :=
    ⟨⟨1, .running, 1500, 0, some 100, 100, none, none⟩, by decide, rfl, rfl⟩
  have h2 := conditional_mutation_atomic finishedStore 1 1500 0 3000 .completed (Or.inl rfl)
  refine ⟨(h.1.2 hm).1, (h.1.2 hm).2.1, h2.2.2.1.1 ?_⟩
  rintro ⟨r, hr, hid, hst⟩
  have : r = ⟨1, .finished, 1500, 1500, none, 1000, some 2500, none⟩ := by
    simpa [finishedStore] using hr
  rw [this] at hst
  exact absurd ((preRunning_iff _).1 hst) (by decide)

/-! ### The single-active-interval invariant -/

theorem activeCount_updateWhere_le (s : Store) (interval_id : Nat)
    (pre : IntervalStatus → Bool) (f : IntervalRow → IntervalRow)
    (hpre : ∀ st, pre st = true → isActive st = true) :
    (s.updateWhere interval_id pre f).2.activeCount ≤ s.activeCount := by
  unfold Store.activeCount
  apply filterlen_map_le
  intro a ha hpa
  by_cases hc : (a.id == interval_id && pre a.status) = true
  · have h2 : pre a.status = true := by
      simp only [Bool.and_eq_true] at hc
      exact hc.2
    exact hpre a.status h2
  · rw [if_neg hc] at hpa
    exact hpa

theorem preRunning_active : ∀ st, preRunning st = true → isActive st = true := by
  intro st h
  rw [(preRunning_iff st).1 h]
  rfl

theorem preFinished_active : ∀ st, preFinished st = true → isActive st = true := by
  intro st h
  rw [(preFinished_iff st).1 h]
  rfl

theorem prePausedOrInterrupted_active :
    ∀ st, prePausedOrInterrupted st = true → isActive st = true := by
  intro st h
  rcases (prePausedOrInterrupted_iff st).1 h with rfl | rfl <;> rfl

theorem preActive3_active : ∀ st, preActive3 st = true → isActive st = true := by
  intro st h
  rcases (preActive3_iff st).1 h with rfl | rfl | rfl <;> rfl

/-- C1: in every store reachable by any sequence of `Db` mutations from the
empty database, at most one interval row has an active status; and a create
attempted while an active row exists returns the distinct `None` outcome
(IntegrityError from the partial unique index) leaving rows and event log
exactly as they were — it never replaces the active interval. -/
theorem single_active_invariant (s : Store) (h : Reachable s) :
    s.activeCount ≤ 1 ∧
    ∀ d now, (∃ r ∈ s.intervals, isActive r.status = true) →
      s.insert_interval d now = (none, s) := by
  refine ⟨?_, fun d now hex => insert_interval_blocked s d now hex⟩
  induction h with
  | empty => decide
  | step s' op hs ih =>
    cases op with
    | create d now =>
      by_cases hex : ∃ r ∈ s'.intervals, isActive r.status = true
      · have hb : applyDbOp (.create d now) s' = s' := by
          simp [applyDbOp, insert_interval_blocked s' d now hex]
        rw [hb]
        exact ih
      · have h0 : s'.intervals.filter (fun r => isActive r.status) = [] := by
          rw [List.filter_eq_nil_iff]
          intro a ha hc
          exact hex ⟨a, ha, by simpa using hc⟩
        show (applyDbOp (.create d now) s').activeCount ≤ 1
        simp only [applyDbOp]
        rw [insert_interval_free s' d now hex]
        simp only [Store.activeCount, List.filter_append, h0, List.nil_append]
        simp [List.filter_cons, isActive]
    | finish id d now =>
      simp only [applyDbOp]
      by_cases hm : hasMatch s' id preRunning
      · have hle : (s'.finish_interval id d now).2.activeCount ≤ s'.activeCount := by
          rw [finish_interval_success s' id d now hm]
          exact activeCount_updateWhere_le s' id preRunning _ preRunning_active
        exact le_trans hle ih
      · rw [finish_interval_fail s' id d now hm]
        exact ih
    | resolve id res now =>
      simp only [applyDbOp]
      by_cases hm : hasMatch s' id preFinished
      · cases he : statusToEventType res with
        | none =>
          rw [resolve_interval_error s' id res now hm he]
          exact ih
        | some e =>
          have hle : (s'.resolve_interval id res now).2.activeCount ≤ s'.activeCount := by
            rw [resolve_interval_success s' id res now e hm he]
            exact activeCount_updateWhere_le s' id preFinished _ preFinished_active
          exact le_trans hle ih
      · rw [resolve_interval_fail s' id res now hm]
        exact ih
    | pause id w now =>
      simp only [applyDbOp]
      by_cases hm : hasMatch s' id preRunning
      · have hle : (s'.pause_interval id w now).2.activeCount ≤ s'.activeCount := by
          rw [pause_interval_success s' id w now hm]
          exact activeCount_updateWhere_le s' id preRunning _ preRunning_active
        exact le_trans hle ih
      · rw [pause_interval_fail s' id w now hm]
        exact ih
    | resume id now =>
      simp only [applyDbOp]
      by_cases hm : hasMatch s' id prePausedOrInterrupted
      · have hle : (s'.resume_interval id now).2.activeCount ≤ s'.activeCount := by
          rw [resume_interval_success s' id now hm]
          exact activeCount_updateWhere_le s' id prePausedOrInterrupted _
            prePausedOrInterrupted_active
        exact le_trans hle ih
      · rw [resume_interval_fail s' id now hm]
        exact ih
    | cancel id w now =>
      simp only [applyDbOp]
      by_cases hm : hasMatch s' id preActive3
      · have hle : (s'.cancel_interval id w now).2.activeCount ≤ s'.activeCount := by
          rw [cancel_interval_success s' id w now hm]
          exact activeCount_updateWhere_le s' id preActive3 _ preActive3_active
        exact le_trans hle ih
      · rw [cancel_interval_fail s' id w now hm]
        exact ih
    | heartbeat id now =>
      simp only [applyDbOp]
      rw [update_heartbeat_eq]
      exact le_trans (activeCount_updateWhere_le s' id preRunning _ preRunning_active) ih
    | recover id now =>
      simp only [applyDbOp]
      by_cases hm : hasMatch s' id preRunning
      · have hle : (s'.recover_running_interval id now).2.activeCount ≤ s'.activeCount := by
          rw [recover_interval_success s' id now hm]
          exact activeCount_updateWhere_le s' id preRunning _ preRunning_active
        exact le_trans hle ih
      · rw [recover_interval_fail s' id now hm]
        exact ih

/-- Witness for C1: after one successful create, the count of active rows is
one and a second create is rejected with the store unchanged. -/
theorem single_active_invariant_witness :
    storeOneRunning.activeCount ≤ 1 ∧
    storeOneRunning.insert_interval 600 200 = (none, storeOneRunning) := by
  have h := single_active_invariant storeOneRunning
    (Reachable.step emptyStore (.create 1500 100) Reachable.empty)
  exact ⟨h.1, h.2 600 200 ⟨⟨1, .running, 1500, 0, some 100, 100, none, none⟩, by decide, rfl⟩⟩

/-! ### Terminal statuses are final -/

/-- Primary-key well-formedness of the `intervals` table: every id is below
the autoincrement counter and ids are pairwise distinct. -/
def Store.idsOk (s : Store) : Prop :=
  (∀ r ∈ s.intervals, r.id < s.nextId) ∧
  s.intervals.Pairwise (fun a b => a.id ≠ b.id)

theorem updateWhere_frozen_rows {s : Store} {interval_id : Nat}
    {pre : IntervalStatus → Bool} {f : IntervalRow → IntervalRow}
    (hu : s.intervals.Pairwise (fun a b => a.id ≠ b.id))
    (hfid : ∀ a, (f a).id = a.id) {r : IntervalRow}
    (hr : r ∈ s.intervals) (hprf : pre r.status = false) :
    ∀ r' ∈ (s.updateWhere interval_id pre f).2.intervals, r'.id = r.id → r' = r := by
  intro r' hr' hrid
  rcases mem_updateWhere_intervals hr' with ⟨a, ha, rfl⟩
  by_cases hc : (a.id == interval_id && pre a.status) = true
  · rw [if_pos hc] at hrid ⊢
    rw [hfid a] at hrid
    have haeq : a = r := eq_of_mem_of_id_eq hu ha hr hrid
    subst haeq
    simp only [Bool.and_eq_true] at hc
    rw [hprf] at hc
    exact absurd hc.2 (by simp)
  · rw [if_neg hc] at hrid ⊢
    exact eq_of_mem_of_id_eq hu ha hr hrid

theorem filter_events_append_ne (evs : List Event) (e : Event) (rid : Nat)
    (h : e.interval_id ≠ rid) :
    (evs ++ [e]).filter (fun ev => ev.interval_id == rid)
      = evs.filter (fun ev => ev.interval_id == rid) := by
  rw [List.filter_append]
  simp [List.filter_cons, h]

theorem hasMatch_id_ne {s : Store} {interval_id : Nat} {pre : IntervalStatus → Bool}
    (hu : s.intervals.Pairwise (fun a b => a.id ≠ b.id)) {r : IntervalRow}
    (hr : r ∈ s.intervals) (hprf : pre r.status = false)
    (hm : hasMatch s interval_id pre) : interval_id ≠ r.id := by
  rintro rfl
  obtain ⟨a, ha, haid, hap⟩ := hm
  have : a = r := eq_of_mem_of_id_eq hu ha hr haid
  rw [this, hprf] at hap
  cases hap

theorem frozen_update_success {s : Store} {interval_id : Nat}
    {pre : IntervalStatus → Bool} {f : IntervalRow → IntervalRow} (evt : EventType)
    (now : Int) (hids : s.idsOk) {r : IntervalRow} (hr : r ∈ s.intervals)
    (hprf : pre r.status = false) (hfid : ∀ a, (f a).id = a.id)
    (hm : hasMatch s interval_id pre) :
    r ∈ ((s.updateWhere interval_id pre f).2.insertEvent interval_id evt now).intervals ∧
    (∀ r' ∈ ((s.updateWhere interval_id pre f).2.insertEvent
        interval_id evt now).intervals, r'.id = r.id → r' = r) ∧
    ((s.updateWhere interval_id pre f).2.insertEvent interval_id evt now).events.filter
        (fun ev => ev.interval_id == r.id)
      = s.events.filter (fun ev => ev.interval_id == r.id) := by
  have hne := hasMatch_id_ne hids.2 hr hprf hm
  refine ⟨?_, ?_, ?_⟩
  · exact updateWhere_mem_frame hr (fun hc => by rw [hprf] at hc; exact Bool.noConfusion hc.2)
  · exact updateWhere_frozen_rows hids.2 hfid hr hprf
  · simp only [Store.insertEvent, updateWhere_snd_events]
    exact filter_events_append_ne s.events ⟨interval_id, evt, now⟩ r.id hne

theorem frozen_unchanged {s : Store} (hids : s.idsOk) {r : IntervalRow}
    (hr : r ∈ s.intervals) :
    r ∈ s.intervals ∧ (∀ r' ∈ s.intervals, r'.id = r.id → r' = r) ∧
    s.events.filter (fun ev => ev.interval_id == r.id)
      = s.events.filter (fun ev => ev.interval_id == r.id) :=
  ⟨hr, fun _ hr' hrid => eq_of_mem_of_id_eq hids.2 hr' hr hrid, rfl⟩

/-- C9: terminal statuses are final.  In a well-formed store, for every row in
a terminal status (completed, abandoned or cancelled), every `Db` mutation
leaves that row exactly as it is (any row carrying its id is still that row)
and appends no event carrying its id: every mutation's status precondition
excludes the terminal statuses. -/
theorem terminal_rows_frozen (s : Store) (op : DbOp) (r : IntervalRow)
    (hids : s.idsOk) (hr : r ∈ s.intervals)
    (hterm : r.status = .completed ∨ r.status = .abandoned ∨ r.status = .cancelled) :
    r ∈ (applyDbOp op s).intervals ∧
    (∀ r' ∈ (applyDbOp op s).intervals, r'.id = r.id → r' = r) ∧
    (applyDbOp op s).events.filter (fun ev => ev.interval_id == r.id)
      = s.events.filter (fun ev => ev.interval_id == r.id) := by
  have hnotact : isActive r.status = false := by
    rcases hterm with h | h | h <;> rw [h] <;> rfl
  have hprfR : preRunning r.status = false := by
    cases hq : preRunning r.status
    · rfl
    · rw [preRunning_active _ hq] at hnotact
      exact Bool.noConfusion hnotact
  have hprfF : preFinished r.status = false := by
    cases hq : preFinished r.status
    · rfl
    · rw [preFinished_active _ hq] at hnotact
      exact Bool.noConfusion hnotact
  have hprfP : prePausedOrInterrupted r.status = false := by
    cases hq : prePausedOrInterrupted r.status
    · rfl
    · rw [prePausedOrInterrupted_active _ hq] at hnotact
      exact Bool.noConfusion hnotact
  have hprfA : preActive3 r.status = false := by
    cases hq : preActive3 r.status
    · rfl
    · rw [preActive3_active _ hq] at hnotact
      exact Bool.noConfusion hnotact
  cases op with
  | create d now =>
    simp only [applyDbOp]
    by_cases hex : ∃ a ∈ s.intervals, isActive a.status = true
    · rw [insert_interval_blocked s d now hex]
      exact frozen_unchanged hids hr
    · rw [insert_interval_free s d now hex]
      have hrne : s.nextId ≠ r.id := Nat.ne_of_gt (hids.1 r hr)
      refine ⟨List.mem_append_left _ hr, ?_, ?_⟩
      · intro r' hr' hrid
        rcases List.mem_append.1 hr' with h' | h'
        · exact eq_of_mem_of_id_eq hids.2 h' hr hrid
        · rcases List.mem_singleton.1 h' with rfl
          exact absurd hrid hrne
      · exact filter_events_append_ne s.events ⟨s.nextId, .started, now⟩ r.id hrne
  | finish interval_id d now =>
    simp only [applyDbOp]
    by_cases hm : hasMatch s interval_id preRunning
    · rw [finish_interval_success s interval_id d now hm]
      exact frozen_update_success .finished now hids hr hprfR (fun a => rfl) hm
    · rw [finish_interval_fail s interval_id d now hm]
      exact frozen_unchanged hids hr
  | resolve interval_id res now =>
    simp only [applyDbOp]
    by_cases hm : hasMatch s interval_id preFinished
    · cases he : statusToEventType res with
      | none =>
        rw [resolve_interval_error s interval_id res now hm he]
        exact frozen_unchanged hids hr
      | some e =>
        rw [resolve_interval_success s interval_id res now e hm he]
        exact frozen_update_success e now hids hr hprfF (fun a => rfl) hm
    · rw [resolve_interval_fail s interval_id res now hm]
      exact frozen_unchanged hids hr
  | pause interval_id w now =>
    simp only [applyDbOp]
    by_cases hm : hasMatch s interval_id preRunning
    · rw [pause_interval_success s interval_id w now hm]
      exact frozen_update_success .paused now hids hr hprfR (fun a => rfl) hm
    · rw [pause_interval_fail s interval_id w now hm]
      exact frozen_unchanged hids hr
  | resume interval_id now =>
    simp only [applyDbOp]
    by_cases hm : hasMatch s interval_id prePausedOrInterrupted
    · rw [resume_interval_success s interval_id now hm]
      exact frozen_update_success .resumed now hids hr hprfP (fun a => rfl) hm
    · rw [resume_interval_fail s interval_id now hm]
      exact frozen_unchanged hids hr
  | cancel interval_id w now =>
    simp only [applyDbOp]
    by_cases hm : hasMatch s interval_id preActive3
    · rw [cancel_interval_success s interval_id w now hm]
      exact frozen_update_success .cancelled now hids hr hprfA (fun a => rfl) hm
    · rw [cancel_interval_fail s interval_id w now hm]
      exact frozen_unchanged hids hr
  | heartbeat interval_id now =>
    simp only [applyDbOp]
    rw [update_heartbeat_eq]
    refine ⟨?_, ?_, rfl⟩
    · exact updateWhere_mem_frame hr (fun hc => by rw [hprfR] at hc; exact Bool.noConfusion hc.2)
    · exact @updateWhere_frozen_rows s interval_id preRunning (heartbeatSet now)
        hids.2 (fun a => rfl) r hr hprfR
  | recover interval_id now =>
    simp only [applyDbOp]
    by_cases hm : hasMatch s interval_id preRunning
    · rw [recover_interval_success s interval_id now hm]
      exact frozen_update_success .interrupted now hids hr hprfR (fun a => rfl) hm
    · rw [recover_interval_fail s interval_id now hm]
      exact frozen_unchanged hids hr

/-- Store whose single interval was resolved as completed. -/
def terminalStore : Store :=
  ⟨[⟨1, .completed, 1500, 1500, none, 1000, some 2500, none⟩],
   [⟨1, .started, 1000⟩, ⟨1, .finished, 2500⟩, ⟨1, .completed, 2600⟩], 2⟩

/-- Witness for C9: a pause aimed at a completed interval leaves its row in
place unchanged and its event history untouched. -/
theorem terminal_rows_frozen_witness :
    (⟨1, .completed, 1500, 1500, none, 1000, some 2500, none⟩ : IntervalRow) ∈
      (applyDbOp (.pause 1 0 9999) terminalStore).intervals ∧
    (applyDbOp (.pause 1 0 9999) terminalStore).events.filter (fun ev => ev.interval_id == 1)
      = terminalStore.events.filter (fun ev => ev.interval_id == 1) := by
  have h := terminal_rows_frozen terminalStore (.pause 1 0 9999)
    ⟨1, .completed, 1500, 1500, none, 1000, some 2500, none⟩
    ⟨by decide, by decide⟩ (by decide) (Or.inl rfl)
  exact ⟨h.1, h.2.2⟩

/-! ### Liveness check -/

/-- Environment where the recorded process exists but belongs to another user
(signal probe denied) and `ps` reports a non-python command. -/
def permEnv : LivenessEnv :=
  ⟨true, some 42, fun _ => .permissionDenied, fun _ => some ("bash")⟩

/-- Environment where the signal probe is denied and `ps` reports python. -/
def permPythonEnv : LivenessEnv :=
  ⟨true, some 42, fun _ => .permissionDenied, fun _ => some ("python3")⟩

/-- Counterexample to C8 as stated: the PID file exists and parses, the
process exists (the permission error implies existence), so the claim demands
`is_alive = true`; but the identity check still runs and `ps` reporting a
non-python command makes `is_alive` return false. -/
theorem is_alive_permission_counterexample :
    permEnv.pidFileExists = true ∧ permEnv.pidFileContent = some 42 ∧
    permEnv.kill 42 = .permissionDenied ∧ is_alive permEnv = false :=
  ⟨rfl, rfl, rfl, by decide⟩

/-- C8 (amended): `is_alive` is true only if the PID file exists, its content
parses, the kill-probe does not report a missing process, and the `ps`
identity check reports a python process; a permission-denied kill-probe is
treated as the process existing, after which the identity check alone decides
the result. -/
theorem is_alive_spec_amended (env : LivenessEnv) :
    (is_alive env = true →
      env.pidFileExists = true ∧
      ∃ pid, env.pidFileContent = some pid ∧ env.kill pid ≠ .noSuchProcess ∧
        ∃ out, env.psComm pid = some out ∧ pythonIn out = true) ∧
    (∀ pid, env.pidFileExists = true → env.pidFileContent = some pid →
      env.kill pid = .permissionDenied →
      (is_alive env = true ↔ ∃ out, env.psComm pid = some out ∧ pythonIn out = true)) := by
  constructor
  · intro h
    cases hex : env.pidFileExists
    · simp [is_alive, hex] at h
    · refine ⟨rfl, ?_⟩
      cases hc : env.pidFileContent with
      | none => simp [is_alive, hex, hc] at h
      | some pid =>
        refine ⟨pid, rfl, ?_, ?_⟩
        · intro hk
          simp [is_alive, hex, hc, hk] at h
        · cases hp : env.psComm pid with
          | none =>
            cases hk : env.kill pid <;> simp [is_alive, hex, hc, hk, hp] at h
          | some out =>
            refine ⟨out, rfl, ?_⟩
            cases hk : env.kill pid <;> simp [is_alive, hex, hc, hk, hp] at h <;> exact h
  · intro pid hex hc hk
    cases hp : env.psComm pid with
    | none => simp [is_alive, hex, hc, hk, hp]
    | some out => simp [is_alive, hex, hc, hk, hp]

/-- Witness for the amended C8: with a denied kill-probe and `ps` reporting a
python process, the process is judged alive. -/
theorem is_alive_spec_amended_witness :
    is_alive permPythonEnv = true ∧
    (∃ out, permPythonEnv.psComm 42 = some out ∧ pythonIn out = true) := by
  have h := (is_alive_spec_amended permPythonEnv).2 42 rfl rfl rfl
  exact ⟨h.2 ⟨"python3", rfl, by decide⟩, ⟨"python3", rfl, by decide⟩⟩

/-! ### Timer loop iteration -/

/-- C6: in one iteration of the Timer Loop for a given interval id: if the
polled row is absent or not running the loop exits at once with the store
untouched; given a running row it attempts `finish` exactly when
`effective_worked now` has reached `duration_sec`; and if that finish attempt
fails because no running row with the id exists any more (a concurrent actor
already changed it), the iteration ends as a lost race with the store exactly
unchanged. -/
theorem timer_iteration_spec (interval_id : Nat) (r : IntervalRow) (now lhb rAt : Int)
    (resol : Option IntervalStatus) (s : Store) :
    (timerIteration interval_id none now lhb resol rAt s = (.notRunning, s, lhb)) ∧
    (r.status ≠ .running →
      timerIteration interval_id (some r) now lhb resol rAt s = (.notRunning, s, lhb)) ∧
    (r.status = .running →
      (((timerIteration interval_id (some r) now lhb resol rAt s).1 = .raceLost ∨
        ∃ b, (timerIteration interval_id (some r) now lhb resol rAt s).1 = .finishedNow b) ↔
        r.effective_worked now ≥ r.duration_sec)) ∧
    (r.status = .running → r.effective_worked now ≥ r.duration_sec →
      (∀ a ∈ s.intervals, ¬(a.id = interval_id ∧ a.status = .running)) →
      timerIteration interval_id (some r) now lhb resol rAt s =
        (.raceLost, s, if now - lhb ≥ HEARTBEAT_INTERVAL_SEC then now else lhb)) := by
  refine ⟨rfl, ?_, ?_, ?_⟩
  · intro hne
    simp only [timerIteration]
    rw [if_pos hne]
  · intro hrun
    constructor
    · intro hres
      by_contra heff
      have hpoll : (timerIteration interval_id (some r) now lhb resol rAt s).1 = .poll := by
        by_cases hhb : now - lhb ≥ HEARTBEAT_INTERVAL_SEC <;>
          simp [timerIteration, hrun, hhb, heff]
      rcases hres with h1 | ⟨b, h1⟩ <;> rw [h1] at hpoll <;> cases hpoll
    · intro heff
      obtain ⟨s1, l2, heval⟩ : ∃ (s1 : Store) (l2 : Int),
          timerIteration interval_id (some r) now lhb resol rAt s =
            (if (s1.finish_interval interval_id r.duration_sec now).1 then
              match resol with
              | some res => (.finishedNow true,
                  (((s1.finish_interval interval_id r.duration_sec now).2).resolve_interval
                    interval_id res rAt).2, l2)
              | none => (.finishedNow false,
                  (s1.finish_interval interval_id r.duration_sec now).2, l2)
             else (.raceLost, s1, l2)) := by
        by_cases hhb : now - lhb ≥ HEARTBEAT_INTERVAL_SEC
        · exact ⟨s.update_heartbeat interval_id now, now,
            by simp [timerIteration, hrun, hhb, heff]⟩
        · exact ⟨s, lhb, by simp [timerIteration, hrun, hhb, heff]⟩
      rw [heval]
      by_cases hfr : (s1.finish_interval interval_id r.duration_sec now).1 = true
      · cases resol with
        | some res => exact Or.inr ⟨true, by simp [hfr]⟩
        | none => exact Or.inr ⟨false, by simp [hfr]⟩
      · exact Or.inl (by simp [hfr])
  · intro hrun heff hnone
    have hnm : ¬ hasMatch s interval_id preRunning := by
      rintro ⟨a, ha, haid, hap⟩
      exact hnone a ha ⟨haid, (preRunning_iff _).1 hap⟩
    have hupd : s.update_heartbeat interval_id now = s := by
      rw [update_heartbeat_eq]
      exact updateWhere_snd_of_no_match hnm
    have hfin : s.finish_interval interval_id r.duration_sec now = (false, s) :=
      finish_interval_fail s interval_id r.duration_sec now hnm
    by_cases hhb : now - lhb ≥ HEARTBEAT_INTERVAL_SEC <;>
      simp [timerIteration, hrun, hhb, heff, hupd, hfin]

/-- Witness for C6: polling a non-running row exits cleanly; a stale running
row whose time is up loses the finish race against an already-finished store
and changes nothing. -/
theorem timer_iteration_spec_witness :
    timerIteration 1 (some ⟨1, .finished, 1500, 1500, none, 1000, some 2500, none⟩)
        2600 0 none 0 finishedStore = (.notRunning, finishedStore, 0) ∧
    timerIteration 1 (some runningRowW) 1600 1595 none 1600 finishedStore
      = (.raceLost, finishedStore, 1595) := by
  have h1 := (timer_iteration_spec 1 ⟨1, .finished, 1500, 1500, none, 1000, some 2500, none⟩
    2600 0 0 none finishedStore).2.1 (by decide)
  have h2 := (timer_iteration_spec 1 runningRowW 1600 1595 1600 none
    finishedStore).2.2.2 rfl (by decide) (by decide)
  refine ⟨h1, ?_⟩
  rw [h2]
  decide

/-! ### Caller-level steps and the monotonicity of worked_sec

The `worked_sec` arguments of `pause_interval` and `cancel_interval` are
computed by their callers (commands/pause.py and commands/cancel.py) as
`row.effective_worked(now)` on the current row, and `finish_interval` is
called by the timer worker with `row.duration_sec`.  `CallerStep` is one such
caller-accurate invocation; clocks never run backwards along a step. -/

/-- Facts that hold of every row when the current time is at least `c`:
positive target, `worked_sec` within `[0, duration_sec]`, stored timestamps
not in the future, a heartbeat only on a running row and never older than the
running segment it belongs to. -/
def rowWF (c : Int) (r : IntervalRow) : Prop :=
  0 < r.duration_sec ∧ 0 ≤ r.worked_sec ∧ r.worked_sec ≤ r.duration_sec ∧
  (∀ t0, r.run_started_at = some t0 → t0 ≤ c) ∧
  (∀ hb, r.heartbeat_at = some hb →
    r.status = .running ∧ hb ≤ c ∧ ∀ t0, r.run_started_at = some t0 → t0 ≤ hb)

/-- Store well-formedness at time `c`. -/
def WF (s : Store) (c : Int) : Prop :=
  s.idsOk ∧ ∀ r ∈ s.intervals, rowWF c r

theorem rowWF_mono {c c' : Int} (h : c ≤ c') {r : IntervalRow} (hw : rowWF c r) :
    rowWF c' r := by
  obtain ⟨hd, hw0, hwd, hrs, hhb⟩ := hw
  refine ⟨hd, hw0, hwd, fun t0 ht => le_trans (hrs t0 ht) h, fun hb hh => ?_⟩
  obtain ⟨h1, h2, h3⟩ := hhb hb hh
  exact ⟨h1, le_trans h2 h, h3⟩

theorem effective_worked_ge_worked {c now : Int} {r : IntervalRow}
    (hwf : rowWF c r) (hc : c ≤ now) : r.worked_sec ≤ r.effective_worked now := by
  obtain ⟨hd, hw0, hwd, hrs, hhb⟩ := hwf
  unfold IntervalRow.effective_worked
  cases hst : r.status
  case running =>
    cases ho : r.run_started_at with
    | none => exact le_refl _
    | some t0 =>
      have ht0 : t0 ≤ c := hrs t0 ho
      exact le_min (by linarith) hwd
  all_goals exact le_refl _

theorem effective_worked_bounds {c now : Int} {r : IntervalRow}
    (hwf : rowWF c r) (hc : c ≤ now) :
    0 ≤ r.effective_worked now ∧ r.effective_worked now ≤ r.duration_sec := by
  obtain ⟨hd, hw0, hwd, hrs, hhb⟩ := hwf
  unfold IntervalRow.effective_worked
  cases hst : r.status
  case running =>
    cases ho : r.run_started_at with
    | none => exact ⟨hw0, hwd⟩
    | some t0 =>
      have ht0 : t0 ≤ c := hrs t0 ho
      exact ⟨le_min (by linarith) (by linarith), min_le_right _ _⟩
  all_goals exact ⟨hw0, hwd⟩

theorem rowWF_pauseSet {c now : Int} {r : IntervalRow}
    (hwf : rowWF c r) (hc : c ≤ now) :
    rowWF now (pauseSet (r.effective_worked now) r) := by
  have hb := effective_worked_bounds hwf hc
  exact ⟨hwf.1, hb.1, hb.2, fun _ h => Option.noConfusion h,
         fun _ h => Option.noConfusion h⟩

theorem rowWF_cancelSet {c now : Int} {r : IntervalRow}
    (hwf : rowWF c r) (hc : c ≤ now) :
    rowWF now (cancelSet (r.effective_worked now) now r) := by
  have hb := effective_worked_bounds hwf hc
  exact ⟨hwf.1, hb.1, hb.2, fun _ h => Option.noConfusion h,
         fun _ h => Option.noConfusion h⟩

theorem rowWF_finishSet {c now : Int} {r : IntervalRow} (hwf : rowWF c r) :
    rowWF now (finishSet r.duration_sec now r) :=
  ⟨hwf.1, le_of_lt hwf.1, le_refl _, fun _ h => Option.noConfusion h,
   fun _ h => Option.noConfusion h⟩

theorem rowWF_resumeSet {c now : Int} {r : IntervalRow}
    (hwf : rowWF c r) (hst : r.status = .paused ∨ r.status = .interrupted) :
    rowWF now (resumeSet now r) := by
  refine ⟨hwf.1, hwf.2.1, hwf.2.2.1, ?_, ?_⟩
  · intro t0 h
    have ht : some now = some t0 := h
    cases ht
    exact le_refl _
  · intro h2 h
    have hr2 : r.heartbeat_at = some h2 := h
    have := (hwf.2.2.2.2 h2 hr2).1
    rcases hst with h3 | h3 <;> rw [h3] at this <;> cases this

theorem rowWF_resolveSet {c now : Int} {r : IntervalRow} {res : IntervalStatus}
    (hwf : rowWF c r) (hc : c ≤ now) (hst : r.status = .finished) :
    rowWF now (resolveSet res r) := by
  refine ⟨hwf.1, hwf.2.1, hwf.2.2.1, ?_, ?_⟩
  · intro t0 h
    exact le_trans (hwf.2.2.2.1 t0 h) hc
  · intro h2 h
    have := (hwf.2.2.2.2 h2 h).1
    rw [hst] at this
    cases this

theorem rowWF_heartbeatSet {c now : Int} {r : IntervalRow}
    (hwf : rowWF c r) (hc : c ≤ now) (hst : r.status = .running) :
    rowWF now (heartbeatSet now r) := by
  refine ⟨hwf.1, hwf.2.1, hwf.2.2.1, ?_, ?_⟩
  · intro t0 h
    exact le_trans (hwf.2.2.2.1 t0 h) hc
  · intro h2 h
    have hh : some now = some h2 := h
    cases hh
    exact ⟨hst, le_refl _, fun t0 ht0 => le_trans (hwf.2.2.2.1 t0 ht0) hc⟩

theorem rowWF_recoverSet {c now : Int} {r : IntervalRow}
    (hwf : rowWF c r) : rowWF now (recoverSet r) := by
  have hd := hwf.1
  refine ⟨hd, ?_, ?_, fun _ h => Option.noConfusion h, fun _ h => Option.noConfusion h⟩
  · show 0 ≤ (recoverSet r).worked_sec
    simp only [recoverSet]
    cases hhb : r.heartbeat_at with
    | none => exact hwf.2.1
    | some h2 =>
      cases ho : r.run_started_at with
      | none => exact hwf.2.1
      | some t0 =>
        have ht := (hwf.2.2.2.2 h2 hhb).2.2 t0 ho
        have hw0 := hwf.2.1
        exact le_min (by linarith) (le_of_lt hd)
  · show (recoverSet r).worked_sec ≤ (recoverSet r).duration_sec
    simp only [recoverSet]
    cases hhb : r.heartbeat_at with
    | none => exact hwf.2.2.1
    | some h2 =>
      cases ho : r.run_started_at with
      | none => exact hwf.2.2.1
      | some t0 => exact min_le_right _ _

theorem recoverSet_worked_ge {c : Int} {r : IntervalRow} (hwf : rowWF c r) :
    r.worked_sec ≤ (recoverSet r).worked_sec := by
  simp only [recoverSet]
  cases hhb : r.heartbeat_at with
  | none => exact le_refl _
  | some h2 =>
    cases ho : r.run_started_at with
    | none => exact le_refl _
    | some t0 =>
      have ht := (hwf.2.2.2.2 h2 hhb).2.2 t0 ho
      exact le_min (by linarith) hwf.2.2.1

theorem updateWhere_g_id {interval_id : Nat} {pre : IntervalStatus → Bool}
    {f : IntervalRow → IntervalRow} (hfid : ∀ a, (f a).id = a.id) (a : IntervalRow) :
    (if a.id == interval_id && pre a.status then f a else a).id = a.id := by
  by_cases hc : (a.id == interval_id && pre a.status) = true
  · rw [if_pos hc, hfid a]
  · rw [if_neg hc]

theorem idsOk_updateWhere {s : Store} {interval_id : Nat} {pre : IntervalStatus → Bool}
    {f : IntervalRow → IntervalRow} (hids : s.idsOk) (hfid : ∀ a, (f a).id = a.id) :
    (s.updateWhere interval_id pre f).2.idsOk := by
  constructor
  · intro r' hr'
    rcases mem_updateWhere_intervals hr' with ⟨a, ha, rfl⟩
    rw [updateWhere_g_id hfid a]
    exact hids.1 a ha
  · show (s.intervals.map _).Pairwise _
    rw [List.pairwise_map]
    refine hids.2.imp_of_mem ?_
    intro a b ha hb hab
    rw [updateWhere_g_id hfid a, updateWhere_g_id hfid b]
    exact hab

theorem WF_updateWhere {s : Store} {c now : Int} {interval_id : Nat}
    {pre : IntervalStatus → Bool} {f : IntervalRow → IntervalRow}
    (hwf : WF s c) (hc : c ≤ now) (hfid : ∀ a, (f a).id = a.id)
    (hfwf : ∀ a ∈ s.intervals, a.id = interval_id → pre a.status = true → rowWF now (f a)) :
    WF (s.updateWhere interval_id pre f).2 now := by
  refine ⟨idsOk_updateWhere hwf.1 hfid, ?_⟩
  intro r' hr'
  rcases mem_updateWhere_intervals hr' with ⟨a, ha, rfl⟩
  by_cases hcnd : (a.id == interval_id && pre a.status) = true
  · rw [if_pos hcnd]
    simp only [Bool.and_eq_true, beq_iff_eq] at hcnd
    exact hfwf a ha hcnd.1 hcnd.2
  · rw [if_neg hcnd]
    exact rowWF_mono hc (hwf.2 a ha)

theorem WF_insertEvent {s : Store} {c : Int} {interval_id : Nat} {e : EventType}
    {t : Int} (h : WF s c) : WF (s.insertEvent interval_id e t) c := h

theorem worked_mono_updateWhere {s : Store} {interval_id : Nat}
    {pre : IntervalStatus → Bool} {f : IntervalRow → IntervalRow}
    (hu : s.intervals.Pairwise (fun a b => a.id ≠ b.id))
    (hfid : ∀ a, (f a).id = a.id)
    (hmono : ∀ a ∈ s.intervals, a.id = interval_id → pre a.status = true →
      a.worked_sec ≤ (f a).worked_sec) :
    ∀ r ∈ s.intervals, ∀ r' ∈ (s.updateWhere interval_id pre f).2.intervals,
      r'.id = r.id → r.worked_sec ≤ r'.worked_sec := by
  intro r hr r' hr' hid
  rcases mem_updateWhere_intervals hr' with ⟨a, ha, rfl⟩
  by_cases hcnd : (a.id == interval_id && pre a.status) = true
  · rw [if_pos hcnd] at hid ⊢
    rw [hfid a] at hid
    have heq : a = r := eq_of_mem_of_id_eq hu ha hr hid
    rw [← heq]
    simp only [Bool.and_eq_true, beq_iff_eq] at hcnd
    exact hmono a ha hcnd.1 hcnd.2
  · rw [if_neg hcnd] at hid ⊢
    have heq : a = r := eq_of_mem_of_id_eq hu ha hr hid
    rw [heq]

theorem WF_mono_unchanged {s : Store} {c now : Int} (hwf : WF s c) (hc : c ≤ now) :
    WF s now ∧ ∀ r ∈ s.intervals, ∀ r' ∈ s.intervals, r'.id = r.id →
      r.worked_sec ≤ r'.worked_sec :=
  ⟨⟨hwf.1, fun a ha => rowWF_mono hc (hwf.2 a ha)⟩,
   fun r hr r' hr' hid => le_of_eq (by rw [eq_of_mem_of_id_eq hwf.1.2 hr' hr hid])⟩

/-- One caller-accurate store invocation at time `now` (clock never behind the
previous step): create with a validated positive duration (commands/start.py),
pause/cancel with `worked_sec := row.effective_worked(now)` (commands/pause.py,
commands/cancel.py), finish with `worked_sec := row.duration_sec`
(timer_worker.py), resolve with a validated resolution (commands/finish.py,
notification.py), and resume/heartbeat/recover, which take no worked value. -/
inductive CallerStep (s : Store) (c : Int) : Store → Int → Prop
  | create (d now : Int) (hd : 0 < d) (hc : c ≤ now) :
      CallerStep s c (s.insert_interval d now).2 now
  | pause (r : IntervalRow) (now : Int) (hr : r ∈ s.intervals) (hc : c ≤ now) :
      CallerStep s c (s.pause_interval r.id (r.effective_worked now) now).2 now
  | cancel (r : IntervalRow) (now : Int) (hr : r ∈ s.intervals) (hc : c ≤ now) :
      CallerStep s c (s.cancel_interval r.id (r.effective_worked now) now).2 now
  | finish (r : IntervalRow) (now : Int) (hr : r ∈ s.intervals) (hc : c ≤ now) :
      CallerStep s c (s.finish_interval r.id r.duration_sec now).2 now
  | resume (interval_id : Nat) (now : Int) (hc : c ≤ now) :
      CallerStep s c (s.resume_interval interval_id now).2 now
  | resolve (interval_id : Nat) (res : IntervalStatus) (now : Int) (hc : c ≤ now)
      (hres : res = .completed ∨ res = .abandoned) :
      CallerStep s c (s.resolve_interval interval_id res now).2 now
  | heartbeat (interval_id : Nat) (now : Int) (hc : c ≤ now) :
      CallerStep s c (s.update_heartbeat interval_id now) now
  | recover (interval_id : Nat) (now : Int) (hc : c ≤ now) :
      CallerStep s c (s.recover_running_interval interval_id now).2 now

/-- Stores reachable from the empty database by caller-accurate invocations
with a never-decreasing clock. -/
inductive CallerReachable : Store → Int → Prop
  | init (c : Int) : CallerReachable emptyStore c
  | step {s : Store} {c : Int} {s' : Store} {c' : Int} :
      CallerReachable s c → CallerStep s c s' c' → CallerReachable s' c'

theorem callerStep_preserve {s : Store} {c : Int} {s' : Store} {c' : Int}
    (hwf : WF s c) (hstep : CallerStep s c s' c') :
    WF s' c' ∧ ∀ r ∈ s.intervals, ∀ r' ∈ s'.intervals, r'.id = r.id →
      r.worked_sec ≤ r'.worked_sec := by
  cases hstep with
  | create d now hd hc =>
    by_cases hex : ∃ a ∈ s.intervals, isActive a.status = true
    · rw [insert_interval_blocked s d c' hex]
      exact WF_mono_unchanged hwf hc
    · rw [insert_interval_free s d c' hex]
      refine ⟨⟨⟨?_, ?_⟩, ?_⟩, ?_⟩
      · intro a ha
        rcases List.mem_append.1 ha with h | h
        · exact Nat.lt_succ_of_lt (hwf.1.1 a h)
        · rcases List.mem_singleton.1 h with rfl
          exact Nat.lt_succ_self _
      · rw [List.pairwise_append]
        refine ⟨hwf.1.2, List.pairwise_singleton _ _, ?_⟩
        intro a ha b hb
        rcases List.mem_singleton.1 hb with rfl
        exact Nat.ne_of_lt (hwf.1.1 a ha)
      · intro a ha
        rcases List.mem_append.1 ha with h | h
        · exact rowWF_mono hc (hwf.2 a h)
        · rcases List.mem_singleton.1 h with rfl
          refine ⟨hd, le_refl 0, le_of_lt hd, ?_, fun _ hh => Option.noConfusion hh⟩
          intro t0 ht
          have ht2 : some c' = some t0 := ht
          cases ht2
          exact le_refl _
      · intro r hr r' hr' hid
        rcases List.mem_append.1 hr' with h | h
        · exact le_of_eq (by rw [eq_of_mem_of_id_eq hwf.1.2 h hr hid])
        · rcases List.mem_singleton.1 h with rfl
          exact absurd hid (Ne.symm (Nat.ne_of_lt (hwf.1.1 r hr)))
  | pause r now hr hc =>
    by_cases hm : hasMatch s r.id preRunning
    · rw [pause_interval_success s r.id _ c' hm]
      constructor
      · refine WF_insertEvent (WF_updateWhere hwf hc (fun a => rfl) ?_)
        intro a ha haid hap
        have heq : a = r := eq_of_mem_of_id_eq hwf.1.2 ha hr haid
        subst heq
        exact rowWF_pauseSet (hwf.2 a ha) hc
      · refine worked_mono_updateWhere hwf.1.2 (fun a => rfl) ?_
        intro a ha haid hap
        have heq : a = r := eq_of_mem_of_id_eq hwf.1.2 ha hr haid
        subst heq
        exact effective_worked_ge_worked (hwf.2 a ha) hc
    · rw [pause_interval_fail s r.id _ c' hm]
      exact WF_mono_unchanged hwf hc
  | cancel r now hr hc =>
    by_cases hm : hasMatch s r.id preActive3
    · rw [cancel_interval_success s r.id _ c' hm]
      constructor
      · refine WF_insertEvent (WF_updateWhere hwf hc (fun a => rfl) ?_)
        intro a ha haid hap
        have heq : a = r := eq_of_mem_of_id_eq hwf.1.2 ha hr haid
        subst heq
        exact rowWF_cancelSet (hwf.2 a ha) hc
      · refine worked_mono_updateWhere hwf.1.2 (fun a => rfl) ?_
        intro a ha haid hap
        have heq : a = r := eq_of_mem_of_id_eq hwf.1.2 ha hr haid
        subst heq
        exact effective_worked_ge_worked (hwf.2 a ha) hc
    · rw [cancel_interval_fail s r.id _ c' hm]
      exact WF_mono_unchanged hwf hc
  | finish r now hr hc =>
    by_cases hm : hasMatch s r.id preRunning
    · rw [finish_interval_success s r.id _ c' hm]
      constructor
      · refine WF_insertEvent (WF_updateWhere hwf hc (fun a => rfl) ?_)
        intro a ha haid hap
        have heq : a = r := eq_of_mem_of_id_eq hwf.1.2 ha hr haid
        subst heq
        exact rowWF_finishSet (hwf.2 a ha)
      · refine worked_mono_updateWhere hwf.1.2 (fun a => rfl) ?_
        intro a ha haid hap
        have heq : a = r := eq_of_mem_of_id_eq hwf.1.2 ha hr haid
        subst heq
        exact (hwf.2 a ha).2.2.1
    · rw [finish_interval_fail s r.id _ c' hm]
      exact WF_mono_unchanged hwf hc
  | resume interval_id now hc =>
    by_cases hm : hasMatch s interval_id prePausedOrInterrupted
    · rw [resume_interval_success s interval_id c' hm]
      constructor
      · refine WF_insertEvent (WF_updateWhere hwf hc (fun a => rfl) ?_)
        intro a ha haid hap
        exact rowWF_resumeSet (hwf.2 a ha) ((prePausedOrInterrupted_iff _).1 hap)
      · exact worked_mono_updateWhere hwf.1.2 (fun a => rfl)
          (fun a ha haid hap => le_refl _)
    · rw [resume_interval_fail s interval_id c' hm]
      exact WF_mono_unchanged hwf hc
  | resolve interval_id res now hc hres =>
    obtain ⟨e, he⟩ : ∃ e, statusToEventType res = some e := by
      rcases hres with rfl | rfl
      · exact ⟨.completed, rfl⟩
      · exact ⟨.abandoned, rfl⟩
    by_cases hm : hasMatch s interval_id preFinished
    · rw [resolve_interval_success s interval_id res c' e hm he]
      constructor
      · refine WF_insertEvent (WF_updateWhere hwf hc (fun a => rfl) ?_)
        intro a ha haid hap
        exact rowWF_resolveSet (hwf.2 a ha) hc ((preFinished_iff _).1 hap)
      · exact worked_mono_updateWhere hwf.1.2 (fun a => rfl)
          (fun a ha haid hap => le_refl _)
    · rw [resolve_interval_fail s interval_id res c' hm]
      exact WF_mono_unchanged hwf hc
  | heartbeat interval_id now hc =>
    rw [update_heartbeat_eq]
    constructor
    · refine WF_updateWhere hwf hc (fun a => rfl) ?_
      intro a ha haid hap
      exact rowWF_heartbeatSet (hwf.2 a ha) hc ((preRunning_iff _).1 hap)
    · exact worked_mono_updateWhere hwf.1.2 (fun a => rfl)
        (fun a ha haid hap => le_refl _)
  | recover interval_id now hc =>
    by_cases hm : hasMatch s interval_id preRunning
    · rw [recover_interval_success s interval_id c' hm]
      constructor
      · refine WF_insertEvent (WF_updateWhere hwf hc (fun a => rfl) ?_)
        intro a ha haid hap
        exact rowWF_recoverSet (hwf.2 a ha)
      · exact worked_mono_updateWhere hwf.1.2 (fun a => rfl)
          (fun a ha haid hap => recoverSet_worked_ge (hwf.2 a ha))
    · rw [recover_interval_fail s interval_id c' hm]
      exact WF_mono_unchanged hwf hc

theorem callerReachable_WF {s : Store} {c : Int} (h : CallerReachable s c) : WF s c := by
  induction h with
  | init c =>
    exact ⟨⟨fun r hr => absurd hr (List.not_mem_nil r), List.Pairwise.nil⟩,
           fun r hr => absurd hr (List.not_mem_nil r)⟩
  | step h hstep ih => exact (callerStep_preserve ih hstep).1

/-- C5: along any caller-accurate operation sequence from the empty database,
`worked_sec` never decreases: one further step (pause, cancel, finish,
recover, or any of the others) maps every stored row to a row with the same id
whose `worked_sec` is at least the old value. -/
theorem worked_sec_monotone {s : Store} {c : Int} {s' : Store} {c' : Int}
    (hreach : CallerReachable s c) (hstep : CallerStep s c s' c') :
    ∀ r ∈ s.intervals, ∀ r' ∈ s'.intervals, r'.id = r.id →
      r.worked_sec ≤ r'.worked_sec :=
  (callerStep_preserve (callerReachable_WF hreach) hstep).2

/-- Witness for C5: create at time 100, pause at time 160 — the stored
`worked_sec` moves from 0 up to 60, never down. -/
theorem worked_sec_monotone_witness :
    (⟨1, .running, 1500, 0, some 100, 100, none, none⟩ : IntervalRow).worked_sec ≤
      (⟨1, .paused, 1500, 60, none, 100, none, none⟩ : IntervalRow).worked_sec := by
  have h := worked_sec_monotone
    (CallerReachable.step (CallerReachable.init 100)
      (CallerStep.create 1500 100 (by decide) (by decide)))
    (CallerStep.pause ⟨1, .running, 1500, 0, some 100, 100, none, none⟩ 160
      (by decide) (by decide))
  exact h ⟨1, .running, 1500, 0, some 100, 100, none, none⟩ (by decide)
    ⟨1, .paused, 1500, 60, none, 100, none, none⟩ (by decide) rfl

end MbPomodoro
